import Mathlib

/-!
# MFT tracker workflow: buffer bookkeeping of `TrackerDPL::run`

A shallow embedding of `TrackerDPL::run`
(`Detectors/ITSMFT/MFT/workflow/src/TrackerSpec.cxx`, lines 83-185): the
`copyTracks` lambda (lines 128-138) and the read-out-frame loop (lines 140-174).

The external collaborators (`ioutils::loadROFrameData`,
`Tracker::clustersToTracks`, `Tracker::computeTracksMClabels`) are not part of
the embedded code.  What they return or do for a frame is carried by
`FrameData`, and every theorem quantifies over all such results.

Conventions.
* `std::vector` is a `List`; `push_back` and `emplace_back` append one element
  at the end; `size()` is `List.length`.
* Buffer sizes and the frame counter `roFrame` are natural numbers: the buffers
  of one time frame stay far below `2^31` tracks and `2^32` frame records, so
  the conversions `size_t -> int` at lines 165-166 and the `std::uint32_t`
  counter at line 118 do not wrap.
* `int nclUsed` (line 143) is an `Int`; the test `if (nclUsed)` is `nclUsed ≠ 0`.
-/

namespace o2.mft

/-! ## Data model -/

/-- Modelled from the spec: the read-out-frame record `o2::itsmft::ROFRecord`,
whose header is not among the sources.  It carries the entry range
`(firstEntry, nEntries)` that `setFirstEntry(int)` and `setNEntries(int)`
overwrite, and further data `rest` (bunch crossing, frame number) that `run`
never touches. -/
structure ROFRecord (R : Type) where
  firstEntry : Int
  nEntries : Int
  rest : R
deriving DecidableEq, Repr

/-- Setter `ROFRecord::setFirstEntry`. -/
def ROFRecord.setFirstEntry {R : Type} (rof : ROFRecord R) (first : Int) : ROFRecord R :=
  { rof with firstEntry := first }

/-- Setter `ROFRecord::setNEntries`. -/
def ROFRecord.setNEntries {R : Type} (rof : ROFRecord R) (number : Int) : ROFRecord R :=
  { rof with nEntries := number }

/-- Modelled from the spec: the output track `o2::mft::TrackMFT`, whose header
is not among the sources: fit parameters `payload` (copied verbatim), the
external-cluster-index offset and the point count. -/
structure TrackMFT (P : Type) where
  payload : P
  clusRefOffset : Nat
  nPoints : Nat
deriving DecidableEq, Repr

/-- Getter `TrackMFT::getExternalClusterIndexOffset`. -/
def TrackMFT.getExternalClusterIndexOffset {P : Type} (t : TrackMFT P) : Nat :=
  t.clusRefOffset

/-- Getter `TrackMFT::getNumberOfPoints`. -/
def TrackMFT.getNumberOfPoints {P : Type} (t : TrackMFT P) : Nat :=
  t.nPoints

/-- Modelled from the spec: a track candidate (`o2::mft::TrackLTF`,
`o2::mft::TrackCA`), whose headers are not among the sources.  It is a
`TrackMFT` extended by the table of external cluster indices, read through
`getExternalClusterIndex(ic)`.  The stored offset is whatever an earlier use
left there; `copyTracks` overwrites it. -/
structure TrackMFTExt (P : Type) where
  payload : P
  clusRefOffset : Nat
  nPoints : Nat
  extClsIndex : Nat → Int

variable {P L R : Type}

/-- Setter `setExternalClusterIndexOffset(offset)`. -/
def TrackMFTExt.setExternalClusterIndexOffset (trc : TrackMFTExt P) (offset : Nat) :
    TrackMFTExt P :=
  { trc with clusRefOffset := offset }

/-- Getter `getNumberOfPoints()`. -/
def TrackMFTExt.getNumberOfPoints (trc : TrackMFTExt P) : Nat :=
  trc.nPoints

/-- Getter `getExternalClusterIndex(ic)`. -/
def TrackMFTExt.getExternalClusterIndex (trc : TrackMFTExt P) (ic : Nat) : Int :=
  trc.extClsIndex ic

/-- The conversion done by `allTracks.emplace_back(trc)` (line 136): the
candidate is copied into a `TrackMFT`, which keeps the fit parameters, the
offset and the point count and drops the index table. -/
def TrackMFTExt.toTrackMFT (trc : TrackMFTExt P) : TrackMFT P :=
  { payload := trc.payload, clusRefOffset := trc.clusRefOffset, nPoints := trc.nPoints }

/-! ## `copyTracks` (lines 128-138) -/

/-- The inner loop, lines 132-135: for `ic = 0 .. ncl-1` push
`trc.getExternalClusterIndex(ic)` onto `allClusIdx`. -/
def pushClusterIndices (trc : TrackMFTExt P) (ncl : Nat) (allClusIdx : List Int) : List Int :=
  (List.range ncl).foldl (fun acc ic => acc ++ [trc.getExternalClusterIndex ic]) allClusIdx

/-- One iteration of the outer loop, lines 130-136, on the pair
`(allTracks, allClusIdx)`. -/
def copyTrack (bufs : List (TrackMFT P) × List Int) (trc : TrackMFTExt P) :
    List (TrackMFT P) × List Int :=
  let trc1 := trc.setExternalClusterIndexOffset bufs.2.length
  let ncl := trc1.getNumberOfPoints
  let allClusIdx := pushClusterIndices trc1 ncl bufs.2
  (bufs.1 ++ [trc1.toTrackMFT], allClusIdx)

/-- The lambda `copyTracks(tracks, allTracks, allClusIdx)`, lines 128-138.
The result is the pair of buffers `(allTracks, allClusIdx)` after the call. -/
def copyTracks (tracks : List (TrackMFTExt P)) (allTracks : List (TrackMFT P))
    (allClusIdx : List Int) : List (TrackMFT P) × List Int :=
  tracks.foldl copyTrack (allTracks, allClusIdx)

/-! ## The frame loop of `TrackerDPL::run` (lines 140-174) -/

/-- What one element of the input carries and what the collaborators return
for it: the input frame record (an element of `rofsinput`), the value returned
by `loadROFrameData` (line 143), the contents of `event.getTracksLTF()` and
`event.getTracksCA()` after `clustersToTracks` (lines 149-151), and what a call
`mTracker->computeTracksMClabels(tracks)` does during this frame to the label
vector held by the tracker (the vector read through `getTrackLabels()`): given
the candidate list and the vector before the call, the vector after it.  The
last three are used only when `nclUsed` is non-zero. -/
structure FrameData (P L R : Type) where
  rof : ROFRecord R
  nclUsed : Int
  tracksLTF : List (TrackMFTExt P)
  tracksCA : List (TrackMFTExt P)
  computeTracksMClabels : List (TrackMFTExt P) → List L → List L

/-- The calls to the collaborators that `run` makes, in order. -/
inductive Call (R : Type) where
  | loadROFrameData (rof : ROFRecord R)
  | clustersToTracks (roFrame : Nat)
deriving DecidableEq, Repr

/-- The variables of `run` that the loop changes.  `rofs` holds the elements of
the output vector `rofs` (line 96) that the range-for of line 142 has passed,
each with its final value; `trackLabels` is the local vector of line 112;
`trackerLabels` is the label vector held by `mTracker`, the one
`getTrackLabels()` returns by reference; `calls` is the trace of collaborator
calls. -/
structure RunState (P L R : Type) where
  rofs : List (ROFRecord R)
  allClusIdx : List Int
  trackLabels : List L
  trackerLabels : List L
  allTrackLabels : List L
  allTracksMFT : List (TrackMFT P)
  roFrame : Nat
  nTracksLTF : Nat
  nTracksCA : Nat
  calls : List (Call R)

/-- The state before the loop (lines 88-118): empty buffers, counters at 0.
The tracker holds no labels: it is created without any (line 64), and every
pass through lines 158-160 hands it back the emptied local vector. -/
def RunState.init : RunState P L R :=
  { rofs := [], allClusIdx := [], trackLabels := [], trackerLabels := [],
    allTrackLabels := [], allTracksMFT := [],
    roFrame := 0, nTracksLTF := 0, nTracksCA := 0, calls := [] }

/-- Line 143: the loader is called on the frame record. -/
def loadFrame (st : RunState P L R) (fd : FrameData P L R) : RunState P L R :=
  { st with calls := st.calls ++ [Call.loadROFrameData fd.rof] }

/-- Lines 145-153: the track finder runs with frame id `roFrame`, and the
per-type counters grow by the sizes of the two candidate lists. -/
def findTracks (st : RunState P L R) (fd : FrameData P L R) : RunState P L R :=
  { st with
    calls := st.calls ++ [Call.clustersToTracks st.roFrame]
    nTracksLTF := st.nTracksLTF + fd.tracksLTF.length
    nTracksCA := st.nTracksCA + fd.tracksCA.length }

/-- Line 156: `mTracker->computeTracksMClabels(tracksLTF)`. -/
def computeLabelsLTF (st : RunState P L R) (fd : FrameData P L R) : RunState P L R :=
  { st with trackerLabels := fd.computeTracksMClabels fd.tracksLTF st.trackerLabels }

/-- Line 157: `mTracker->computeTracksMClabels(tracksCA)`. -/
def computeLabelsCA (st : RunState P L R) (fd : FrameData P L R) : RunState P L R :=
  { st with trackerLabels := fd.computeTracksMClabels fd.tracksCA st.trackerLabels }

/-- Line 158: `trackLabels.swap(mTracker->getTrackLabels())`. -/
def swapLabels (st : RunState P L R) : RunState P L R :=
  { st with trackLabels := st.trackerLabels, trackerLabels := st.trackLabels }

/-- Line 159: `std::copy` of `trackLabels` to the end of `allTrackLabels`. -/
def copyLabels (st : RunState P L R) : RunState P L R :=
  { st with allTrackLabels := st.allTrackLabels ++ st.trackLabels }

/-- Line 160: `trackLabels.clear()`. -/
def clearLabels (st : RunState P L R) : RunState P L R :=
  { st with trackLabels := [] }

/-- Lines 155-161: with `mUseMC`, the labels of the linear candidates and then
those of the cellular-automaton candidates are computed into the tracker's
vector, which is swapped with the local one, copied to the end of
`allTrackLabels` and cleared. -/
def accumulateLabels (useMC : Bool) (st : RunState P L R) (fd : FrameData P L R) :
    RunState P L R :=
  if useMC then
    clearLabels (copyLabels (swapLabels (computeLabelsCA (computeLabelsLTF st fd) fd)))
  else st

/-- Lines 165-168: `first = allTracksMFT.size()`,
`number = tracksLTF.size() + tracksCA.size()`, written into the frame record. -/
def recordRange (st : RunState P L R) (fd : FrameData P L R) : RunState P L R :=
  let first : Int := st.allTracksMFT.length
  let number : Int := fd.tracksLTF.length + fd.tracksCA.length
  { st with rofs := st.rofs ++ [(fd.rof.setFirstEntry first).setNEntries number] }

/-- Line 169: `copyTracks(tracksLTF, allTracksMFT, allClusIdx)`. -/
def mergeLTF (st : RunState P L R) (fd : FrameData P L R) : RunState P L R :=
  let bufs := copyTracks fd.tracksLTF st.allTracksMFT st.allClusIdx
  { st with allTracksMFT := bufs.1, allClusIdx := bufs.2 }

/-- Line 170: `copyTracks(tracksCA, allTracksMFT, allClusIdx)`. -/
def mergeCA (st : RunState P L R) (fd : FrameData P L R) : RunState P L R :=
  let bufs := copyTracks fd.tracksCA st.allTracksMFT st.allClusIdx
  { st with allTracksMFT := bufs.1, allClusIdx := bufs.2 }

/-- The branch of line 144 that is not taken when `nclUsed` is 0: the frame
record is left as it was copied from the input. -/
def skipFrame (st : RunState P L R) (fd : FrameData P L R) : RunState P L R :=
  { st with rofs := st.rofs ++ [fd.rof] }

/-- Line 172: `roFrame++`. -/
def nextFrame (st : RunState P L R) : RunState P L R :=
  { st with roFrame := st.roFrame + 1 }

/-- One iteration of the loop body, lines 143-172. -/
def processFrame (useMC : Bool) (st : RunState P L R) (fd : FrameData P L R) :
    RunState P L R :=
  let st1 := loadFrame st fd
  let st2 :=
    if fd.nclUsed ≠ 0 then
      mergeCA (mergeLTF (recordRange (accumulateLabels useMC (findTracks st1 fd) fd) fd) fd) fd
    else
      skipFrame st1 fd
  nextFrame st2

/-- The loop of lines 142-173 from a given state. -/
def runFrames (useMC : Bool) (st : RunState P L R) (frames : List (FrameData P L R)) :
    RunState P L R :=
  frames.foldl (processFrame useMC) st

/-- The body of `TrackerDPL::run`, lines 83-185: `continuous` is the flag of line 121,
`useMC` is `mUseMC`.  Without continuous read-out the loop is not entered and
the output frame records are the copy of the input made at lines 95-96. -/
def run (continuous useMC : Bool) (frames : List (FrameData P L R)) : RunState P L R :=
  if continuous then runFrames useMC RunState.init frames
  else { (RunState.init : RunState P L R) with rofs := frames.map (fun fd => fd.rof) }

/-- The states at the statement boundaries of one loop iteration, in order:
after line 143, and then either after line 153, (with `mUseMC`) after lines
156, 157, 158 and 159, after lines 161, 168, 169, 170 and 172, or (zero usable
clusters) after line 172. -/
def framePoints (useMC : Bool) (st : RunState P L R) (fd : FrameData P L R) :
    List (RunState P L R) :=
  let st1 := loadFrame st fd
  if fd.nclUsed ≠ 0 then
    let a := findTracks st1 fd
    let l1 := computeLabelsLTF a fd
    let l2 := computeLabelsCA l1 fd
    let l3 := swapLabels l2
    let l4 := copyLabels l3
    let b := accumulateLabels useMC a fd
    let c := recordRange b fd
    let d := mergeLTF c fd
    let e := mergeCA d fd
    [st1, a] ++ (if useMC then [l1, l2, l3, l4] else []) ++ [b, c, d, e, nextFrame e]
  else
    [st1, nextFrame (skipFrame st1 fd)]

/-- Every state the loop goes through from `st` on: `st` itself, the statement
boundaries of each iteration, up to the state after the last frame. -/
def runPoints (useMC : Bool) : RunState P L R → List (FrameData P L R) → List (RunState P L R)
  | st, [] => [st]
  | st, fd :: rest => st :: (framePoints useMC st fd).dropLast ++
      runPoints useMC (processFrame useMC st fd) rest

/-! ## Vocabulary of the statements -/

/-- The external cluster indices `getExternalClusterIndex(0)`, ...,
`getExternalClusterIndex(n-1)` of a candidate with `n` points. -/
def clusterRefs (trc : TrackMFTExt P) : List Int :=
  (List.range trc.getNumberOfPoints).map trc.getExternalClusterIndex

/-- The candidates of one frame in merge order: linear first, then
cellular-automaton; none when the loader reported 0 usable clusters. -/
def frameCandidates (fd : FrameData P L R) : List (TrackMFTExt P) :=
  if fd.nclUsed ≠ 0 then fd.tracksLTF ++ fd.tracksCA else []

/-- All candidates of a run, frame by frame. -/
def foundCandidates (frames : List (FrameData P L R)) : List (TrackMFTExt P) :=
  frames.flatMap frameCandidates

/-- The output tracks that candidates `cs` become when the cluster-index buffer
holds `off` entries before the first of them is written. -/
def outputTracks : Nat → List (TrackMFTExt P) → List (TrackMFT P)
  | _, [] => []
  | off, c :: cs =>
    { payload := c.payload, clusRefOffset := off, nPoints := c.nPoints } ::
      outputTracks (off + c.nPoints) cs

/-- The labels a frame adds to `allTrackLabels` when the tracker holds no
labels before the frame: with `mUseMC` set and usable clusters, what the call
for the linear candidates followed by the call for the cellular-automaton
candidates leaves in the tracker's vector; none otherwise. -/
def frameLabels (useMC : Bool) (fd : FrameData P L R) : List L :=
  if useMC = true ∧ fd.nclUsed ≠ 0 then
    fd.computeTracksMClabels fd.tracksCA (fd.computeTracksMClabels fd.tracksLTF [])
  else []

/-- The frame records the loop leaves behind when the track buffer holds `n`
tracks before the first of the frames: a frame with usable clusters gets
`(n, tracksLTF.size() + tracksCA.size())`, a frame without keeps its input record. -/
def outputRofs : Nat → List (FrameData P L R) → List (ROFRecord R)
  | _, [] => []
  | n, fd :: rest =>
    (if fd.nclUsed ≠ 0 then
      { fd.rof with firstEntry := (n : Int),
                    nEntries := (fd.tracksLTF.length : Int) + (fd.tracksCA.length : Int) }
    else fd.rof) :: outputRofs (n + (frameCandidates fd).length) rest

/-- The collaborator calls of the loop when the frame counter is `k` before
the first of the frames. -/
def callTrace : Nat → List (FrameData P L R) → List (Call R)
  | _, [] => []
  | k, fd :: rest =>
    Call.loadROFrameData fd.rof ::
      ((if fd.nclUsed ≠ 0 then [Call.clustersToTracks k] else []) ++ callTrace (k + 1) rest)

/-- Number of linear candidates of the frames with usable clusters. -/
def countLTF (frames : List (FrameData P L R)) : Nat :=
  (frames.map (fun fd => if fd.nclUsed ≠ 0 then fd.tracksLTF.length else 0)).sum

/-- Number of cellular-automaton candidates of the frames with usable clusters. -/
def countCA (frames : List (FrameData P L R)) : Nat :=
  (frames.map (fun fd => if fd.nclUsed ≠ 0 then fd.tracksCA.length else 0)).sum

/-- A track `t` of the output buffer was produced from candidate `c`: same fit
parameters and same point count (`emplace_back(trc)` copies both). -/
def ProducedFrom (t : TrackMFT P) (c : TrackMFTExt P) : Prop :=
  t.payload = c.payload ∧ t.getNumberOfPoints = c.getNumberOfPoints

/-- The label associator `labelFor` yields exactly one label per candidate in
list order during frame `fd`: a call `computeTracksMClabels(tracks)` puts
`labelFor fd c` for each candidate `c` of `tracks`, in list order, at the end of
the tracker's label vector. -/
def OneLabelPerCandidate (labelFor : FrameData P L R → TrackMFTExt P → L)
    (fd : FrameData P L R) : Prop :=
  ∀ (tracks : List (TrackMFTExt P)) (held : List L),
    fd.computeTracksMClabels tracks held = held ++ tracks.map (labelFor fd)

/-- All candidates of a run, frame by frame, each with the frame it belongs to. -/
def foundCandidatesWithFrame (frames : List (FrameData P L R)) :
    List (FrameData P L R × TrackMFTExt P) :=
  frames.flatMap (fun fd => (frameCandidates fd).map (fun c => (fd, c)))

/-- The candidates of a frame in merge order, each paired with the label the
associator computes for it in that frame. -/
def labelledCandidates (labelFor : FrameData P L R → TrackMFTExt P → L)
    (fd : FrameData P L R) : List (TrackMFTExt P × L) :=
  (frameCandidates fd).map (fun c => (c, labelFor fd c))

/-- An output track with its label `tl` comes from a candidate with its label
`cl`: the track was produced from the candidate and the labels agree. -/
def LabelledFrom (tl : TrackMFT P × L) (cl : TrackMFTExt P × L) : Prop :=
  ProducedFrom tl.1 cl.1 ∧ tl.2 = cl.2

/-- The ranges of the frame records, taken in frame order, cover
`[start, total)` without gap or overlap: each range begins where the one before
ended, no range has a negative length, and the last one ends at `total`. -/
def RangesCover : Int → List (ROFRecord R) → Int → Prop
  | start, [], total => start = total
  | start, rof :: rest, total =>
    rof.firstEntry = start ∧ 0 ≤ rof.nEntries
      ∧ RangesCover (start + rof.nEntries) rest total

/-- `RangesCover` can be computed. -/
instance decRangesCover : (start : Int) → (rofs : List (ROFRecord R)) → (total : Int) →
    Decidable (RangesCover start rofs total)
  | start, [], total => inferInstanceAs (Decidable (start = total))
  | start, rof :: rest, total =>
    have := decRangesCover (start + rof.nEntries) rest total
    inferInstanceAs (Decidable (rof.firstEntry = start ∧ 0 ≤ rof.nEntries
      ∧ RangesCover (start + rof.nEntries) rest total))

/-! ## Sample inputs -/

/-- A linear candidate with fit parameters `10` and cluster refs `[5, 7]`. -/
def sampleLinear : TrackMFTExt Nat :=
  { payload := 10, clusRefOffset := 0, nPoints := 2, extClsIndex := fun ic => [5, 7].getD ic 0 }

/-- A cellular-automaton candidate with fit parameters `20` and cluster refs `[2]`. -/
def sampleCA : TrackMFTExt Nat :=
  { payload := 20, clusRefOffset := 0, nPoints := 1, extClsIndex := fun ic => [2].getD ic 0 }

/-- A label associator: the label of a candidate is ten times its fit
parameter, whatever the frame. -/
def sampleLabelFor (_fd : FrameData Nat Nat Unit) (c : TrackMFTExt Nat) : Nat :=
  10 * c.payload

/-- The tracker method that goes with `sampleLabelFor`: one label per candidate,
in list order, at the end of the labels held. -/
def sampleAssociator (tracks : List (TrackMFTExt Nat)) (held : List Nat) : List Nat :=
  held ++ tracks.map (fun c => 10 * c.payload)

/-- A frame holding the clusters `[0, 2)` of the input, for which the finder
yields `sampleLinear`; its label is `100`. -/
def sampleFrame0 : FrameData Nat Nat Unit :=
  { rof := { firstEntry := 0, nEntries := 2, rest := () }, nclUsed := 2,
    tracksLTF := [sampleLinear], tracksCA := [], computeTracksMClabels := sampleAssociator }

/-- A frame holding the cluster `[2, 3)` of the input, for which the finder
yields `sampleCA`; its label is `200`. -/
def sampleFrame1 : FrameData Nat Nat Unit :=
  { rof := { firstEntry := 2, nEntries := 1, rest := () }, nclUsed := 1,
    tracksLTF := [], tracksCA := [sampleCA], computeTracksMClabels := sampleAssociator }

/-- A frame without clusters, placed after two clusters of the input: its
record is `(firstEntry, nEntries) = (2, 0)` and the loader returns 0. -/
def sampleFrameNoClusters : FrameData Nat Nat Unit :=
  { rof := { firstEntry := 2, nEntries := 0, rest := () }, nclUsed := 0,
    tracksLTF := [], tracksCA := [], computeTracksMClabels := sampleAssociator }

/-- A frame holding the clusters `[0, 2)` of the input, for which the finder
yields a linear candidate, `sampleLinear`, and a cellular-automaton candidate,
`sampleCA`. -/
def sampleFrameBoth : FrameData Nat Nat Unit :=
  { rof := { firstEntry := 0, nEntries := 2, rest := () }, nclUsed := 2,
    tracksLTF := [sampleLinear], tracksCA := [sampleCA],
    computeTracksMClabels := sampleAssociator }

/-- The two frames `sampleFrame0`, `sampleFrame1`. -/
def scenarioFrames : List (FrameData Nat Nat Unit) :=
  [sampleFrame0, sampleFrame1]

/-- The same two frames with the frame without clusters between them. -/
def gapFrames : List (FrameData Nat Nat Unit) :=
  [sampleFrame0, sampleFrameNoClusters, sampleFrame1]

/-- A frame with candidates of both kinds, followed by `sampleFrame1`. -/
def mixedFrames : List (FrameData Nat Nat Unit) :=
  [sampleFrameBoth, sampleFrame1]

/-! ## `copyTracks`: what it appends -/

theorem pushClusterIndices_eq (trc : TrackMFTExt P) (ncl : Nat) (allClusIdx : List Int) :
    pushClusterIndices trc ncl allClusIdx
      = allClusIdx ++ (List.range ncl).map trc.getExternalClusterIndex := by
  unfold pushClusterIndices
  induction ncl with
  | zero => simp
  | succ n ih => simp [List.range_succ, List.foldl_append, ih]

theorem copyTrack_eq (bufs : List (TrackMFT P) × List Int) (trc : TrackMFTExt P) :
    copyTrack bufs trc
      = (bufs.1 ++ [{ payload := trc.payload, clusRefOffset := bufs.2.length,
                      nPoints := trc.nPoints }],
         bufs.2 ++ clusterRefs trc) := by
  simp [copyTrack, pushClusterIndices_eq, clusterRefs, TrackMFTExt.toTrackMFT,
    TrackMFTExt.setExternalClusterIndexOffset, TrackMFTExt.getNumberOfPoints,
    TrackMFTExt.getExternalClusterIndex]

theorem clusterRefs_length (trc : TrackMFTExt P) : (clusterRefs trc).length = trc.nPoints := by
  simp [clusterRefs, TrackMFTExt.getNumberOfPoints]

theorem copyTracks_eq (tracks : List (TrackMFTExt P)) (allTracks : List (TrackMFT P))
    (allClusIdx : List Int) :
    copyTracks tracks allTracks allClusIdx
      = (allTracks ++ outputTracks allClusIdx.length tracks,
         allClusIdx ++ tracks.flatMap clusterRefs) := by
  unfold copyTracks
  induction tracks generalizing allTracks allClusIdx with
  | nil => simp [outputTracks]
  | cons c cs ih =>
    rw [List.foldl_cons, copyTrack_eq, ih]
    simp [outputTracks, clusterRefs_length]

theorem outputTracks_length (off : Nat) (cs : List (TrackMFTExt P)) :
    (outputTracks off cs).length = cs.length := by
  induction cs generalizing off with
  | nil => rfl
  | cons c cs ih => simp [outputTracks, ih]

theorem outputTracks_append (off : Nat) (as bs : List (TrackMFTExt P)) :
    outputTracks off (as ++ bs)
      = outputTracks off as ++ outputTracks (off + (as.flatMap clusterRefs).length) bs := by
  induction as generalizing off with
  | nil => simp [outputTracks]
  | cons c cs ih =>
    simp [outputTracks, ih, clusterRefs_length, Nat.add_assoc]

/-! ## The loop in closed form -/

theorem processFrame_eq (useMC : Bool) (st : RunState P L R) (fd : FrameData P L R)
    (hlocal : st.trackLabels = []) (htracker : st.trackerLabels = []) :
    processFrame useMC st fd
      = { rofs := st.rofs ++ outputRofs st.allTracksMFT.length [fd],
          allClusIdx := st.allClusIdx ++ (frameCandidates fd).flatMap clusterRefs,
          trackLabels := [],
          trackerLabels := [],
          allTrackLabels := st.allTrackLabels ++ frameLabels useMC fd,
          allTracksMFT := st.allTracksMFT
            ++ outputTracks st.allClusIdx.length (frameCandidates fd),
          roFrame := st.roFrame + 1,
          nTracksLTF := st.nTracksLTF + countLTF [fd],
          nTracksCA := st.nTracksCA + countCA [fd],
          calls := st.calls ++ callTrace st.roFrame [fd] } := by
  by_cases h : fd.nclUsed = 0
  · simp [processFrame, h, loadFrame, skipFrame, nextFrame, outputRofs, frameCandidates,
      frameLabels, outputTracks, countLTF, countCA, callTrace, hlocal, htracker]
  · cases useMC <;>
    simp [processFrame, h, loadFrame, findTracks, accumulateLabels, computeLabelsLTF,
      computeLabelsCA, swapLabels, copyLabels, clearLabels, recordRange, mergeLTF,
      mergeCA, nextFrame, outputRofs, frameCandidates, frameLabels, countLTF, countCA,
      callTrace, copyTracks_eq, outputTracks_append, ROFRecord.setFirstEntry,
      ROFRecord.setNEntries, hlocal, htracker]

theorem foundCandidates_cons (fd : FrameData P L R) (rest : List (FrameData P L R)) :
    foundCandidates (fd :: rest) = frameCandidates fd ++ foundCandidates rest := by
  simp [foundCandidates]

theorem foundCandidates_append (as bs : List (FrameData P L R)) :
    foundCandidates (as ++ bs) = foundCandidates as ++ foundCandidates bs := by
  simp [foundCandidates]

theorem runFrames_eq (useMC : Bool) (st : RunState P L R) (frames : List (FrameData P L R))
    (hlocal : st.trackLabels = []) (htracker : st.trackerLabels = []) :
    runFrames useMC st frames
      = { rofs := st.rofs ++ outputRofs st.allTracksMFT.length frames,
          allClusIdx := st.allClusIdx ++ (foundCandidates frames).flatMap clusterRefs,
          trackLabels := [],
          trackerLabels := [],
          allTrackLabels := st.allTrackLabels ++ frames.flatMap (frameLabels useMC),
          allTracksMFT := st.allTracksMFT
            ++ outputTracks st.allClusIdx.length (foundCandidates frames),
          roFrame := st.roFrame + frames.length,
          nTracksLTF := st.nTracksLTF + countLTF frames,
          nTracksCA := st.nTracksCA + countCA frames,
          calls := st.calls ++ callTrace st.roFrame frames } := by
  induction frames generalizing st with
  | nil =>
    cases st
    simp only at hlocal htracker
    simp [runFrames, outputRofs, foundCandidates, outputTracks, countLTF, countCA, callTrace,
      hlocal, htracker]
  | cons fd rest ih =>
    have hstep : runFrames useMC st (fd :: rest)
        = runFrames useMC (processFrame useMC st fd) rest := by
      simp [runFrames]
    have hp := processFrame_eq useMC st fd hlocal htracker
    rw [hstep, ih _ (by rw [hp]) (by rw [hp]), hp]
    simp [outputRofs, foundCandidates_cons, outputTracks_append, outputTracks_length, countLTF,
      countCA, callTrace, Nat.add_assoc, Nat.add_comm 1]

/-! ## Claims on `copyTracks` -/

/-- C8. Every candidate is represented: `copyTracks` lengthens the track buffer
by exactly the number of candidates; a candidate with zero points, wherever it
stands in the list, is not skipped: it yields the output track `(offset, 0)`
with `offset` the length of the cluster-index buffer at that moment and appends
nothing to the cluster-index buffer; merging the empty list changes neither
buffer. -/
theorem copyTracks_every_candidate_represented (tracks : List (TrackMFTExt P))
    (allTracks : List (TrackMFT P)) (allClusIdx : List Int) :
    (copyTracks tracks allTracks allClusIdx).1.length = allTracks.length + tracks.length
    ∧ (∀ (before after : List (TrackMFTExt P)) (c : TrackMFTExt P),
        copyTracks (before ++ { c with nPoints := 0 } :: after) allTracks allClusIdx
          = copyTracks after
              ((copyTracks before allTracks allClusIdx).1 ++
                [{ payload := c.payload,
                   clusRefOffset := (copyTracks before allTracks allClusIdx).2.length,
                   nPoints := 0 }])
              (copyTracks before allTracks allClusIdx).2)
    ∧ copyTracks [] allTracks allClusIdx = (allTracks, allClusIdx) := by
  refine ⟨?_, ?_, rfl⟩
  · simp [copyTracks_eq, outputTracks_length]
  · intro before after c
    simp [copyTracks, List.foldl_append, copyTrack_eq, clusterRefs,
      TrackMFTExt.getNumberOfPoints]

theorem outputTracks_points_sum (off : Nat) (cs : List (TrackMFTExt P)) :
    ((outputTracks off cs).map TrackMFT.getNumberOfPoints).sum
      = (cs.flatMap clusterRefs).length := by
  induction cs generalizing off with
  | nil => rfl
  | cons c cs ih => simp [outputTracks, ih, clusterRefs_length, TrackMFT.getNumberOfPoints]

theorem run_continuous_eq (useMC : Bool) (frames : List (FrameData P L R)) :
    run true useMC frames
      = { rofs := outputRofs 0 frames,
          allClusIdx := (foundCandidates frames).flatMap clusterRefs,
          trackLabels := [],
          trackerLabels := [],
          allTrackLabels := frames.flatMap (frameLabels useMC),
          allTracksMFT := outputTracks 0 (foundCandidates frames),
          roFrame := frames.length,
          nTracksLTF := countLTF frames,
          nTracksCA := countCA frames,
          calls := callTrace 0 frames } := by
  have hr := runFrames_eq useMC (RunState.init : RunState P L R) frames rfl rfl
  simp only [run, if_true, hr]
  simp [RunState.init]

theorem run_triggered_eq (useMC : Bool) (frames : List (FrameData P L R)) :
    run false useMC frames
      = { (RunState.init : RunState P L R) with rofs := frames.map (fun fd => fd.rof) } := by
  simp [run]

/-- C10. Append-only buffers: `copyTracks` only appends to the cluster-index
buffer and to the track buffer; across a run, the buffers after the first
frames are prefixes of the buffers after any further frames, so what earlier
frames committed is neither changed nor reordered; and the final cluster-index
buffer is as long as the sum of the point counts of all output tracks. -/
theorem buffers_append_only (continuous useMC : Bool) (tracks : List (TrackMFTExt P))
    (allTracks : List (TrackMFT P)) (allClusIdx : List Int)
    (earlier later : List (FrameData P L R)) :
    allClusIdx <+: (copyTracks tracks allTracks allClusIdx).2
    ∧ allTracks <+: (copyTracks tracks allTracks allClusIdx).1
    ∧ (run continuous useMC earlier).allClusIdx
        <+: (run continuous useMC (earlier ++ later)).allClusIdx
    ∧ (run continuous useMC earlier).allTracksMFT
        <+: (run continuous useMC (earlier ++ later)).allTracksMFT
    ∧ (run continuous useMC (earlier ++ later)).allClusIdx.length
        = ((run continuous useMC (earlier ++ later)).allTracksMFT.map
            TrackMFT.getNumberOfPoints).sum := by
  refine ⟨?_, ?_, ?_⟩
  · rw [copyTracks_eq]; exact List.prefix_append _ _
  · rw [copyTracks_eq]; exact List.prefix_append _ _
  · cases continuous
    · simp [run_triggered_eq, RunState.init]
    · simp only [run_continuous_eq, foundCandidates_append, List.flatMap_append,
        outputTracks_append, outputTracks_points_sum]
      refine ⟨List.prefix_append _ _, List.prefix_append _ _, ?_⟩
      simp [outputTracks_points_sum]

/-! ## Claims on the whole run -/

theorem outputTracks_slice (front : List Int) (cs : List (TrackMFTExt P)) (i : Nat)
    (t : TrackMFT P) (h : (outputTracks front.length cs)[i]? = some t) :
    ∃ c, cs[i]? = some c ∧ ProducedFrom t c
      ∧ ((front ++ cs.flatMap clusterRefs).drop t.getExternalClusterIndexOffset).take
          t.getNumberOfPoints = clusterRefs c := by
  induction cs generalizing front i with
  | nil => simp [outputTracks] at h
  | cons c cs ih =>
    cases i with
    | zero =>
      simp only [outputTracks, List.getElem?_cons_zero, Option.some.injEq] at h
      subst h
      refine ⟨c, by simp, ⟨rfl, rfl⟩, ?_⟩
      simp only [TrackMFT.getExternalClusterIndexOffset, TrackMFT.getNumberOfPoints,
        List.flatMap_cons, List.drop_left]
      rw [← clusterRefs_length c, List.take_left]
    | succ j =>
      simp only [outputTracks, List.getElem?_cons_succ] at h
      have hlen : front.length + c.nPoints = (front ++ clusterRefs c).length := by
        simp [clusterRefs_length]
      rw [hlen] at h
      obtain ⟨d, hd, hp, hs⟩ := ih (front ++ clusterRefs c) j h
      refine ⟨d, by simpa using hd, hp, ?_⟩
      simpa [List.append_assoc] using hs

/-- C1. Offset correctness: after a continuous-readout run over any frames,
with any loader and track-finder results, the output track at position `i`,
with offset `o` and point count `n`, was produced from the `i`-th candidate of
the run, and entries `[o, o+n)` of `allClusIdx` are, in order,
`getExternalClusterIndex(0)`, ..., `getExternalClusterIndex(n-1)` of that
candidate. -/
theorem offset_correctness (useMC : Bool) (frames : List (FrameData P L R)) (i : Nat)
    (t : TrackMFT P) (h : (run true useMC frames).allTracksMFT[i]? = some t) :
    ∃ c, (foundCandidates frames)[i]? = some c ∧ ProducedFrom t c
      ∧ ((run true useMC frames).allClusIdx.drop t.getExternalClusterIndexOffset).take
          t.getNumberOfPoints
        = (List.range t.getNumberOfPoints).map c.getExternalClusterIndex := by
  rw [run_continuous_eq] at h
  obtain ⟨c, hc, hp, hs⟩ := outputTracks_slice [] (foundCandidates frames) i t h
  refine ⟨c, hc, hp, ?_⟩
  rw [run_continuous_eq]
  have hn : t.getNumberOfPoints = c.getNumberOfPoints := hp.2
  simpa [clusterRefs, hn] using hs

/-- Witness of C1 on the two sample frames: the track at position 1 is
`(payload 20, offset 2, 1 point)`. -/
theorem offset_correctness_witness :
    ∃ c, (foundCandidates scenarioFrames)[1]? = some c
      ∧ ProducedFrom ({ payload := 20, clusRefOffset := 2, nPoints := 1 } : TrackMFT Nat) c
      ∧ ((run true false scenarioFrames).allClusIdx.drop 2).take 1
        = (List.range 1).map c.getExternalClusterIndex :=
  offset_correctness false scenarioFrames 1 { payload := 20, clusRefOffset := 2, nPoints := 1 }
    (by decide)

/-- C6. End-to-end scenario: two frames with usable clusters, frame 0 yielding
one linear candidate with cluster refs `[5,7]` and no CA candidate, frame 1
yielding no linear candidate and one CA candidate with cluster refs `[2]`, give
`allClusIdx = [5,7,2]`, tracks with (offset, point count) `[(0,2), (2,1)]` and
frame ranges (firstEntry, nEntries) `[(0,1), (1,1)]`. -/
theorem end_to_end_scenario (useMC : Bool) (rof0 rof1 : ROFRecord R) (ncl0 ncl1 : Int)
    (lin ca : TrackMFTExt P) (mc0 mc1 : List (TrackMFTExt P) → List L → List L)
    (h0 : ncl0 ≠ 0) (h1 : ncl1 ≠ 0)
    (hlin : clusterRefs lin = [5, 7]) (hca : clusterRefs ca = [2]) :
    (run true useMC
        [ { rof := rof0, nclUsed := ncl0, tracksLTF := [lin], tracksCA := [],
            computeTracksMClabels := mc0 },
          { rof := rof1, nclUsed := ncl1, tracksLTF := [], tracksCA := [ca],
            computeTracksMClabels := mc1 } ]).allClusIdx = [5, 7, 2]
    ∧ (run true useMC
        [ { rof := rof0, nclUsed := ncl0, tracksLTF := [lin], tracksCA := [],
            computeTracksMClabels := mc0 },
          { rof := rof1, nclUsed := ncl1, tracksLTF := [], tracksCA := [ca],
            computeTracksMClabels := mc1 } ]).allTracksMFT.map
          (fun t => (t.getExternalClusterIndexOffset, t.getNumberOfPoints)) = [(0, 2), (2, 1)]
    ∧ (run true useMC
        [ { rof := rof0, nclUsed := ncl0, tracksLTF := [lin], tracksCA := [],
            computeTracksMClabels := mc0 },
          { rof := rof1, nclUsed := ncl1, tracksLTF := [], tracksCA := [ca],
            computeTracksMClabels := mc1 } ]).rofs.map
          (fun r => (r.firstEntry, r.nEntries)) = [(0, 1), (1, 1)] := by
  have nlin : lin.nPoints = 2 := by rw [← clusterRefs_length, hlin]; rfl
  have nca : ca.nPoints = 1 := by rw [← clusterRefs_length, hca]; rfl
  simp [run_continuous_eq, foundCandidates, frameCandidates, h0, h1, hlin, hca, outputTracks,
    outputRofs, nlin, nca, TrackMFT.getExternalClusterIndexOffset, TrackMFT.getNumberOfPoints]

/-- Witness of C6: the scenario on the sample candidates. -/
theorem end_to_end_scenario_witness :
    (run true true scenarioFrames).allClusIdx = [5, 7, 2]
    ∧ (run true true scenarioFrames).allTracksMFT.map
          (fun t => (t.getExternalClusterIndexOffset, t.getNumberOfPoints)) = [(0, 2), (2, 1)]
    ∧ (run true true scenarioFrames).rofs.map
          (fun r => (r.firstEntry, r.nEntries)) = [(0, 1), (1, 1)] :=
  end_to_end_scenario true { firstEntry := 0, nEntries := 2, rest := () }
    { firstEntry := 2, nEntries := 1, rest := () } 2 1 sampleLinear sampleCA
    sampleAssociator sampleAssociator
    (by decide) (by decide) (by decide) (by decide)


theorem outputRofs_length (n : Nat) (frames : List (FrameData P L R)) :
    (outputRofs n frames).length = frames.length := by
  induction frames generalizing n with
  | nil => rfl
  | cons fd rest ih => simp [outputRofs, ih]

theorem outputRofs_append (n : Nat) (as bs : List (FrameData P L R)) :
    outputRofs n (as ++ bs)
      = outputRofs n as ++ outputRofs (n + (foundCandidates as).length) bs := by
  induction as generalizing n with
  | nil => simp [outputRofs, foundCandidates]
  | cons fd rest ih => simp [outputRofs, ih, foundCandidates_cons, Nat.add_assoc]

theorem outputTracks_producedFrom (off : Nat) (cs : List (TrackMFTExt P)) :
    List.Forall₂ ProducedFrom (outputTracks off cs) cs := by
  induction cs generalizing off with
  | nil => exact List.Forall₂.nil
  | cons c cs ih => exact List.Forall₂.cons ⟨rfl, rfl⟩ (ih _)

/-- C4. Merge order stability: for a frame with a non-zero usable-cluster count
whose track finder yields the linear candidates `tracksLTF` and the
cellular-automaton candidates `tracksCA`, the frame's output record has
`firstEntry` equal to the track count before the frame and
`nEntries = L + C`, and the slice `[firstEntry, firstEntry + nEntries)` of the
track buffer has exactly `L + C` entries, produced position by position from
the linear candidates in list order followed by the CA candidates in list
order. -/
theorem merge_order_stability (useMC : Bool) (before after : List (FrameData P L R))
    (fd : FrameData P L R) (h : fd.nclUsed ≠ 0) :
    ∃ rof, (run true useMC (before ++ fd :: after)).rofs[before.length]? = some rof
      ∧ rof.firstEntry = ((run true useMC before).allTracksMFT.length : Int)
      ∧ rof.nEntries = ((fd.tracksLTF.length + fd.tracksCA.length : Nat) : Int)
      ∧ (((run true useMC (before ++ fd :: after)).allTracksMFT.drop
            rof.firstEntry.toNat).take rof.nEntries.toNat).length
          = fd.tracksLTF.length + fd.tracksCA.length
      ∧ List.Forall₂ ProducedFrom
          (((run true useMC (before ++ fd :: after)).allTracksMFT.drop
            rof.firstEntry.toNat).take rof.nEntries.toNat)
          (fd.tracksLTF ++ fd.tracksCA) := by
  have hcands : frameCandidates fd = fd.tracksLTF ++ fd.tracksCA := by
    simp [frameCandidates, h]
  have hslice : ∀ (x y z : List (TrackMFT P)) (n m : Nat), x.length = n → y.length = m →
      ((x ++ (y ++ z)).drop n).take m = y := by
    intro x y z n m hx hy
    subst hx; subst hy
    simp
  refine ⟨{ fd.rof with
            firstEntry := ((foundCandidates before).length : Int),
            nEntries := (fd.tracksLTF.length : Int) + (fd.tracksCA.length : Int) },
          ?_, ?_, ?_, ?_⟩
  · simp only [run_continuous_eq, outputRofs_append]
    rw [List.getElem?_append_right (by simp [outputRofs_length])]
    simp [outputRofs_length, outputRofs, h]
  · simp [run_continuous_eq, outputTracks_length]
  · simp
  · have hs := hslice (outputTracks 0 (foundCandidates before))
        (outputTracks (0 + ((foundCandidates before).flatMap clusterRefs).length)
          (frameCandidates fd))
        (outputTracks (0 + ((foundCandidates before).flatMap clusterRefs).length
            + ((frameCandidates fd).flatMap clusterRefs).length) (foundCandidates after))
        (foundCandidates before).length (fd.tracksLTF.length + fd.tracksCA.length)
        (outputTracks_length _ _) (by simp [outputTracks_length, hcands])
    have hnat : ((fd.tracksLTF.length : Int) + (fd.tracksCA.length : Int)).toNat
        = fd.tracksLTF.length + fd.tracksCA.length := by omega
    simp only [run_continuous_eq, foundCandidates_append, foundCandidates_cons,
      outputTracks_append, Int.toNat_ofNat, hnat, hs]
    refine ⟨by simp [outputTracks_length, hcands], ?_⟩
    rw [← hcands]
    exact outputTracks_producedFrom _ _

/-- Witness of C4 on the sample frames: the frame `sampleFrame1`, after
`sampleFrame0`. -/
theorem merge_order_stability_witness :
    ∃ rof, (run true true ([sampleFrame0] ++ sampleFrame1 :: [])).rofs[1]? = some rof
      ∧ rof.firstEntry = ((run true true [sampleFrame0]).allTracksMFT.length : Int)
      ∧ rof.nEntries = ((sampleFrame1.tracksLTF.length + sampleFrame1.tracksCA.length : Nat) : Int)
      ∧ (((run true true ([sampleFrame0] ++ sampleFrame1 :: [])).allTracksMFT.drop
            rof.firstEntry.toNat).take rof.nEntries.toNat).length
          = sampleFrame1.tracksLTF.length + sampleFrame1.tracksCA.length
      ∧ List.Forall₂ ProducedFrom
          (((run true true ([sampleFrame0] ++ sampleFrame1 :: [])).allTracksMFT.drop
            rof.firstEntry.toNat).take rof.nEntries.toNat)
          (sampleFrame1.tracksLTF ++ sampleFrame1.tracksCA) :=
  merge_order_stability true [sampleFrame0] [] sampleFrame1 (by decide)

/-! ## Frames without usable clusters, and the frame counter -/

theorem mem_callTrace (k id : Nat) (frames : List (FrameData P L R)) :
    Call.clustersToTracks id ∈ callTrace k frames
      ↔ k ≤ id ∧ ∃ fd, frames[id - k]? = some fd ∧ fd.nclUsed ≠ 0 := by
  induction frames generalizing k with
  | nil => simp [callTrace]
  | cons fd rest ih =>
    simp only [callTrace, List.mem_cons, List.mem_append, ih, reduceCtorEq, false_or]
    constructor
    · rintro (h | ⟨hk, fd1, hfd, hn⟩)
      · by_cases hz : fd.nclUsed = 0
        · simp [hz] at h
        · simp only [ne_eq, hz, not_false_eq_true, ↓reduceIte, List.mem_singleton,
            Call.clustersToTracks.injEq] at h
          subst h
          exact ⟨Nat.le_refl _, fd, by simp, hz⟩
      · refine ⟨by omega, fd1, ?_, hn⟩
        have : id - k = (id - (k + 1)) + 1 := by omega
        rw [this, List.getElem?_cons_succ]
        exact hfd
    · rintro ⟨hk, fd1, hfd, hn⟩
      by_cases hid : id = k
      · subst hid
        simp only [Nat.sub_self, List.getElem?_cons_zero, Option.some.injEq] at hfd
        subst hfd
        left
        simp [hn]
      · right
        refine ⟨by omega, fd1, ?_, hn⟩
        have : id - k = (id - (k + 1)) + 1 := by omega
        rw [this, List.getElem?_cons_succ] at hfd
        exact hfd

/-- C9. A frame for which the loader reports 0 usable clusters is inert on the
buffers: processing it calls the loader and nothing else (no track finder), and
leaves `allClusIdx`, `allTracksMFT` and `allTrackLabels` as they were, while
`roFrame` advances by one.  Hence the counter is `k` when the frame at position
`k` is reached, and the track finder is called with frame id `id` exactly when
the frame at position `id` has usable clusters. -/
theorem zero_cluster_frame_inert (useMC : Bool) (st : RunState P L R) (fd : FrameData P L R)
    (frames : List (FrameData P L R)) (k : Nat) (h : fd.nclUsed = 0) (hk : k ≤ frames.length) :
    (processFrame useMC st fd).allClusIdx = st.allClusIdx
    ∧ (processFrame useMC st fd).allTracksMFT = st.allTracksMFT
    ∧ (processFrame useMC st fd).allTrackLabels = st.allTrackLabels
    ∧ (processFrame useMC st fd).calls = st.calls ++ [Call.loadROFrameData fd.rof]
    ∧ (processFrame useMC st fd).roFrame = st.roFrame + 1
    ∧ (run true useMC (frames.take k)).roFrame = k
    ∧ (∀ id, Call.clustersToTracks id ∈ (run true useMC frames).calls
        ↔ ∃ fdi, frames[id]? = some fdi ∧ fdi.nclUsed ≠ 0) := by
  refine ⟨?_, ?_, ?_, ?_, ?_, ?_, ?_⟩
  · simp [processFrame, h, loadFrame, skipFrame, nextFrame]
  · simp [processFrame, h, loadFrame, skipFrame, nextFrame]
  · simp [processFrame, h, loadFrame, skipFrame, nextFrame]
  · simp [processFrame, h, loadFrame, skipFrame, nextFrame]
  · simp [processFrame, h, loadFrame, skipFrame, nextFrame]
  · simp [run_continuous_eq, hk]
  · intro id
    simp [run_continuous_eq, mem_callTrace]

/-- Witness of C9: the frame without clusters, processed after `sampleFrame0`,
in the run over `gapFrames` at position 1. -/
theorem zero_cluster_frame_inert_witness :
    (processFrame true (run true true [sampleFrame0]) sampleFrameNoClusters).allClusIdx
        = (run true true [sampleFrame0]).allClusIdx
    ∧ (processFrame true (run true true [sampleFrame0]) sampleFrameNoClusters).allTracksMFT
        = (run true true [sampleFrame0]).allTracksMFT
    ∧ (processFrame true (run true true [sampleFrame0]) sampleFrameNoClusters).allTrackLabels
        = (run true true [sampleFrame0]).allTrackLabels
    ∧ (processFrame true (run true true [sampleFrame0]) sampleFrameNoClusters).calls
        = (run true true [sampleFrame0]).calls
            ++ [Call.loadROFrameData sampleFrameNoClusters.rof]
    ∧ (processFrame true (run true true [sampleFrame0]) sampleFrameNoClusters).roFrame
        = (run true true [sampleFrame0]).roFrame + 1
    ∧ (run true true (gapFrames.take 1)).roFrame = 1
    ∧ (∀ id, Call.clustersToTracks id ∈ (run true true gapFrames).calls
        ↔ ∃ fdi, gapFrames[id]? = some fdi ∧ fdi.nclUsed ≠ 0) :=
  zero_cluster_frame_inert true (run true true [sampleFrame0]) sampleFrameNoClusters gapFrames 1
    (by decide) (by decide)

/-! ## Triggered read-out -/

/-- C7, counterexample. Without continuous read-out the output frame records
of the two sample frames still carry `nEntries` 2 and 1, although the track
buffer is empty. -/
theorem triggered_output_ranges_not_empty :
    (run false true scenarioFrames).allTracksMFT = []
    ∧ ¬ (∀ rof ∈ (run false true scenarioFrames).rofs, rof.nEntries = 0) := by
  decide

/-- C7, amended. Without continuous read-out `run` calls neither the loader
nor the track finder for any frame, and the track buffer, the cluster-index
buffer and the label buffer are empty.  Nothing is stated about the ranges of
the output frame records. -/
theorem triggered_readout_outputs (useMC : Bool) (frames : List (FrameData P L R)) :
    (run false useMC frames).calls = []
    ∧ (run false useMC frames).allTracksMFT = []
    ∧ (run false useMC frames).allClusIdx = []
    ∧ (run false useMC frames).allTrackLabels = [] := by
  simp [run_triggered_eq, RunState.init]

/-! ## Monte-Carlo labels -/

theorem framePoints_getLast (useMC : Bool) (st : RunState P L R) (fd : FrameData P L R) :
    (framePoints useMC st fd).getLast? = some (processFrame useMC st fd) := by
  by_cases h : fd.nclUsed = 0
  · simp [framePoints, processFrame, h]
  · cases useMC <;> simp [framePoints, processFrame, h]

theorem boundary_mem_runPoints (useMC : Bool) (st : RunState P L R)
    (frames : List (FrameData P L R)) (k : Nat) :
    runFrames useMC st (frames.take k) ∈ runPoints useMC st frames := by
  induction frames generalizing st k with
  | nil => simp [runFrames, runPoints]
  | cons fd rest ih =>
    cases k with
    | zero => simp [runFrames, runPoints]
    | succ j =>
      have hstep : runFrames useMC st (fd :: rest.take j)
          = runFrames useMC (processFrame useMC st fd) (rest.take j) := by
        simp [runFrames]
      simp only [List.take_succ_cons, hstep, runPoints, List.mem_cons, List.mem_append]
      exact Or.inr (ih _ j)

theorem map_labelledFrom (off : Nat) (cs : List (TrackMFTExt P)) (f : TrackMFTExt P → L) :
    List.Forall₂ LabelledFrom ((outputTracks off cs).zip (cs.map f))
      (cs.map (fun c => (c, f c))) := by
  induction cs generalizing off with
  | nil => simp [outputTracks]
  | cons c cs ih =>
    simp only [outputTracks, List.map_cons, List.zip_cons_cons]
    exact List.Forall₂.cons ⟨⟨rfl, rfl⟩, rfl⟩ (ih _)

theorem frameLabels_eq (labelFor : FrameData P L R → TrackMFTExt P → L)
    (fd : FrameData P L R) (h : OneLabelPerCandidate labelFor fd) :
    frameLabels true fd = (frameCandidates fd).map (labelFor fd) := by
  by_cases hz : fd.nclUsed = 0
  · simp [frameLabels, frameCandidates, hz]
  · simp [frameLabels, frameCandidates, hz, h fd.tracksCA, h fd.tracksLTF]

theorem labels_parallel_aux (labelFor : FrameData P L R → TrackMFTExt P → L) (off : Nat)
    (fs : List (FrameData P L R)) (h : ∀ fd ∈ fs, OneLabelPerCandidate labelFor fd) :
    (fs.flatMap (frameLabels true)).length = (foundCandidates fs).length
    ∧ List.Forall₂ LabelledFrom
        ((outputTracks off (foundCandidates fs)).zip (fs.flatMap (frameLabels true)))
        (fs.flatMap (labelledCandidates labelFor)) := by
  induction fs generalizing off with
  | nil => simp [foundCandidates, outputTracks]
  | cons fd rest ih =>
    have hfd := frameLabels_eq labelFor fd (h fd (List.mem_cons_self _ _))
    have hrest := ih (off + ((frameCandidates fd).flatMap clusterRefs).length)
      (fun x hx => h x (List.mem_cons_of_mem _ hx))
    refine ⟨?_, ?_⟩
    · simp [foundCandidates_cons, hfd, hrest.1]
    · rw [foundCandidates_cons, outputTracks_append, List.flatMap_cons, List.flatMap_cons,
        List.zip_append (by rw [outputTracks_length, hfd, List.length_map]), hfd]
      exact List.rel_append (map_labelledFrom _ _ _) hrest.2

theorem sampleAssociator_oneLabel (fd : FrameData Nat Nat Unit)
    (h : fd.computeTracksMClabels = sampleAssociator) :
    OneLabelPerCandidate sampleLabelFor fd := by
  intro tracks held
  rw [h]
  rfl

/-- C5, counterexample. With Monte-Carlo mode on and an associator that yields
one label per candidate in list order, the run over the two sample frames goes
through a state in which the label buffer and the track buffer differ in
length: the labels of a frame are appended at line 159, its tracks only at
lines 169-170. -/
theorem label_parallelism_fails_inside_frame :
    (∀ fd ∈ scenarioFrames, OneLabelPerCandidate sampleLabelFor fd)
    ∧ ∃ st ∈ runPoints true RunState.init scenarioFrames,
        st.allTrackLabels.length ≠ st.allTracksMFT.length := by
  refine ⟨?_, by decide⟩
  intro fd hfd
  simp only [scenarioFrames, List.mem_cons, List.mem_singleton, List.not_mem_nil, or_false]
    at hfd
  rcases hfd with rfl | rfl <;> exact sampleAssociator_oneLabel _ rfl

/-- C5, amended. With Monte-Carlo mode on and a label associator `labelFor`
that yields exactly one label per candidate in list order (each call
`computeTracksMClabels(tracks)` puts the labels of `tracks`, in list order, at
the end of the tracker's label vector), after every completed frame of a
continuous-readout run (the state after the first `k` frames, which is one of
the states the run goes through) the label buffer is as long as the track
buffer, and position by position `tracks[i]` was produced from the `i`-th
candidate of the run and `labels[i]` is the label `labelFor` computes for that
candidate in its frame. -/
theorem label_parallelism_at_frame_boundaries
    (labelFor : FrameData P L R → TrackMFTExt P → L) (frames : List (FrameData P L R))
    (k : Nat) (h : ∀ fd ∈ frames, OneLabelPerCandidate labelFor fd) :
    run true true (frames.take k) ∈ runPoints true RunState.init frames
    ∧ (run true true (frames.take k)).allTrackLabels.length
        = (run true true (frames.take k)).allTracksMFT.length
    ∧ (run true true (frames.take k)).allTrackLabels
        = (foundCandidatesWithFrame (frames.take k)).map (fun fc => labelFor fc.1 fc.2)
    ∧ List.Forall₂ LabelledFrom
        ((run true true (frames.take k)).allTracksMFT.zip
          (run true true (frames.take k)).allTrackLabels)
        ((frames.take k).flatMap (labelledCandidates labelFor)) := by
  have haux := labels_parallel_aux labelFor 0 (frames.take k)
    (fun fd hfd => h fd (List.mem_of_mem_take hfd))
  have hlabels : (frames.take k).flatMap (frameLabels true)
      = (foundCandidatesWithFrame (frames.take k)).map (fun fc => labelFor fc.1 fc.2) := by
    have hall : ∀ fs : List (FrameData P L R), (∀ fd ∈ fs, OneLabelPerCandidate labelFor fd) →
        fs.flatMap (frameLabels true)
          = (foundCandidatesWithFrame fs).map (fun fc => labelFor fc.1 fc.2) := by
      intro fs
      induction fs with
      | nil => intro _; simp [foundCandidatesWithFrame]
      | cons fd rest ih =>
        intro hfs
        have hfd := frameLabels_eq labelFor fd (hfs fd (List.mem_cons_self _ _))
        have hr := ih (fun x hx => hfs x (List.mem_cons_of_mem _ hx))
        simp [foundCandidatesWithFrame, hfd, Function.comp_def] at hr ⊢
        exact hr
    exact hall _ (fun fd hfd => h fd (List.mem_of_mem_take hfd))
  refine ⟨?_, ?_, ?_, ?_⟩
  · have hb := boundary_mem_runPoints true (RunState.init : RunState P L R) frames k
    simpa [run] using hb
  · simp [run_continuous_eq, outputTracks_length, haux.1]
  · simpa [run_continuous_eq] using hlabels
  · simpa [run_continuous_eq] using haux.2

/-- Witness of C5 on `mixedFrames`, after its first frame, which has a linear
and a cellular-automaton candidate. -/
theorem label_parallelism_at_frame_boundaries_witness :
    run true true (mixedFrames.take 1) ∈ runPoints true RunState.init mixedFrames
    ∧ (run true true (mixedFrames.take 1)).allTrackLabels.length
        = (run true true (mixedFrames.take 1)).allTracksMFT.length
    ∧ (run true true (mixedFrames.take 1)).allTrackLabels
        = (foundCandidatesWithFrame (mixedFrames.take 1)).map
            (fun fc => sampleLabelFor fc.1 fc.2)
    ∧ List.Forall₂ LabelledFrom
        ((run true true (mixedFrames.take 1)).allTracksMFT.zip
          (run true true (mixedFrames.take 1)).allTrackLabels)
        ((mixedFrames.take 1).flatMap (labelledCandidates sampleLabelFor)) :=
  label_parallelism_at_frame_boundaries sampleLabelFor mixedFrames 1
    (by
      intro fd hfd
      simp only [mixedFrames, List.mem_cons, List.mem_singleton, List.not_mem_nil, or_false]
        at hfd
      rcases hfd with rfl | rfl <;> exact sampleAssociator_oneLabel _ rfl)

/-! ## Frame ranges when a frame has no usable clusters -/

/-- C3, evaluated. In the run over `gapFrames` the frame at position 1 has no
usable clusters and is reached when the track buffer holds 1 track; its output
record is its input record `(2, 0)`, not `(1, 0)`. -/
theorem zero_cluster_frame_keeps_input_range :
    sampleFrameNoClusters.nclUsed = 0
    ∧ (run true false (gapFrames.take 1)).allTracksMFT.length = 1
    ∧ ((run true false gapFrames).rofs.map (fun r => (r.firstEntry, r.nEntries)))[1]?
        = some (2, 0) := by
  decide

/-- C2, evaluated. In the run over `gapFrames` the output ranges are
`(0,1), (2,0), (1,1)` for a track buffer of 2 tracks: the first entries are not
in non-decreasing order, and the ranges taken in frame order do not cover
`[0, 2)`. -/
theorem frame_ranges_out_of_order :
    (run true false gapFrames).allTracksMFT.length = 2
    ∧ (run true false gapFrames).rofs.map (fun r => (r.firstEntry, r.nEntries))
        = [(0, 1), (2, 0), (1, 1)]
    ∧ ¬ RangesCover 0 (run true false gapFrames).rofs 2 := by
  decide

theorem outputRofs_cover (n : Nat) (frames : List (FrameData P L R))
    (h : ∀ fd ∈ frames, fd.nclUsed ≠ 0) :
    RangesCover (n : Int) (outputRofs n frames)
      ((n + (foundCandidates frames).length : Nat) : Int) := by
  induction frames generalizing n with
  | nil => simp [outputRofs, foundCandidates, RangesCover]
  | cons fd rest ih =>
    have hfd : fd.nclUsed ≠ 0 := h fd (List.mem_cons_self _ _)
    have hrest := ih (n + (frameCandidates fd).length)
      (fun x hx => h x (List.mem_cons_of_mem _ hx))
    have hc : (frameCandidates fd).length = fd.tracksLTF.length + fd.tracksCA.length := by
      simp [frameCandidates, hfd]
    simp only [outputRofs, hfd, ne_eq, not_false_eq_true, ↓reduceIte, RangesCover, true_and]
    refine ⟨by omega, ?_⟩
    rw [foundCandidates_cons, List.length_append, ← Nat.add_assoc]
    rw [hc] at hrest ⊢
    simpa [Int.add_assoc] using hrest

/-- X1. When the loader reports usable clusters for every frame, the output
ranges taken in frame order cover `[0, totalTrackCount)` without gap or
overlap. -/
theorem frame_ranges_partition_when_no_frame_is_empty (useMC : Bool)
    (frames : List (FrameData P L R)) (h : ∀ fd ∈ frames, fd.nclUsed ≠ 0) :
    RangesCover 0 (run true useMC frames).rofs
      ((run true useMC frames).allTracksMFT.length : Int) := by
  have hc := outputRofs_cover 0 frames h
  simpa [run_continuous_eq, outputTracks_length] using hc

/-- Witness of X1 on the two sample frames. -/
theorem frame_ranges_partition_when_no_frame_is_empty_witness :
    RangesCover 0 (run true true scenarioFrames).rofs
      ((run true true scenarioFrames).allTracksMFT.length : Int) :=
  frame_ranges_partition_when_no_frame_is_empty true scenarioFrames (by decide)

/-- X2. In a continuous-readout run, the output record of a frame for which
the loader reports 0 usable clusters is its input record, unchanged. -/
theorem zero_cluster_frame_record_unchanged (useMC : Bool)
    (before after : List (FrameData P L R)) (fd : FrameData P L R) (h : fd.nclUsed = 0) :
    (run true useMC (before ++ fd :: after)).rofs[before.length]? = some fd.rof := by
  simp only [run_continuous_eq, outputRofs_append]
  rw [List.getElem?_append_right (by simp [outputRofs_length])]
  simp [outputRofs_length, outputRofs, h]

/-- Witness of X2: the frame without clusters in `gapFrames`. -/
theorem zero_cluster_frame_record_unchanged_witness :
    (run true true ([sampleFrame0] ++ sampleFrameNoClusters :: [sampleFrame1])).rofs[1]?
      = some sampleFrameNoClusters.rof :=
  zero_cluster_frame_record_unchanged true [sampleFrame0] [sampleFrame1] sampleFrameNoClusters
    (by decide)

end o2.mft
